import Mathlib

/-!
Verification of the sandbox-enforcement core of user_storage.py.

This file gives a shallow embedding of the path resolver, the
command/argument validator, the lock and edit-zone state machine and the
maintenance sweep of src/user_storage.py, and proves properties about them.

Modelling conventions:
- Absolute filesystem paths are lists of segments (List String); relative
  paths are plain strings with "/" separators, as the Python code passes
  them around.
- The filesystem of one zone is a ZoneState: the files under data/,
  the lock files under locks/ (keyed by path without the ".lock" suffix),
  and the files under editzone/ keyed by (conversation id, path).
  Directories are represented implicitly by the files below them, which
  matches the behaviour of the code paths modelled here: os-level directory
  creation (_ensure_dir) and deletion of empty parents (_rm_with_empty_parents)
  have no observable effect in this representation.
- pathlib's Path.resolve() is modelled lexically (left-to-right collapsing
  of ".." and "." segments, with the filesystem root absorbing excess "..");
  symbolic links are outside the model.
- Each mutating operation returns the final state together with an optional
  error, so a raised StorageError that follows earlier mutations keeps them,
  as in Python.
- A lock file's JSON content is modelled by LockContent: undecodable stands
  for text rejected by json.loads, and obj holds the four record fields,
  each Option because dict.get can return None.  Timestamps are abstract
  Nat time units; the expiry comparison now - t > maxAge reproduces the
  code's age comparison, including that a timestamp in the future never
  expires (truncated subtraction gives age 0).
- Git repository metadata (the .git directory written by _init_git_repo and
  _git_commit) lives outside the modelled data map; the Documents-zone
  operations are therefore modelled with the same state transitions as the
  Storage-zone ones, which is exactly their source minus the git calls.
-/

/-- Value of the locked_at field of a lock record as the code consumes it:
missing covers an absent key or empty string (falsy in Python), invalid a
non-empty string rejected by datetime.fromisoformat, and at a timestamp
that parses, in abstract time units. -/
inductive TimeField where
  | missing
  | invalid
  | at (t : Nat)
  deriving DecidableEq, Repr

/-- Error codes raised via StorageError in user_storage.py.  fileLocked
carries the details dict of _check_lock (locked_by, locked_since, path).
pyError stands for a Python exception that is not a StorageError and is
caught by the generic handler of the calling tool function. -/
inductive StorageErr where
  | pathEscape
  | commandForbidden
  | argumentForbidden
  | fileNotFound
  | fileLocked (lockedBy : Option String) (lockedSince : TimeField) (lockedPath : Option String)
  | zoneForbidden
  | quotaExceeded
  | pyError
  deriving DecidableEq, Repr

/-- Content of a lock file: either text that json.loads rejects, or a JSON
object whose fields conv_id, user_id, locked_at, path may each be absent. -/
inductive LockContent where
  | undecodable
  | obj (convId : Option String) (userId : Option String)
      (lockedAt : TimeField) (path : Option String)
  deriving DecidableEq, Repr

/-- Characters that the segment of a list prefix test needs. -/
def listStarts : List Char → List Char → Bool
  | [], _ => true
  | _ :: _, [] => false
  | a :: as, b :: bs => a = b && listStarts as bs

/-- String prefix test (p is a prefix of q), on raw character lists. -/
def strStarts (p q : String) : Bool := listStarts p.data q.data

/-- Python str.startswith for a single-slash pattern. -/
def startsWithSlash (s : String) : Bool :=
  match s.data with
  | [] => false
  | c :: _ => c = '/'

/-- Substring containment on character lists (the Python in operator). -/
def listHasInfix (pat : List Char) : List Char → Bool
  | [] => listStarts pat []
  | l@(_ :: rest) => listStarts pat l || listHasInfix pat rest

/-- Python "needle in s" substring test. -/
def hasSub (needle s : String) : Bool := listHasInfix needle.data s.data

/-- Python s.lstrip for the single character slash. -/
def lstripSlashes (s : String) : String :=
  String.mk (s.data.dropWhile (fun c => c = '/'))

def splitSlashAux : List Char → List Char → List (List Char)
  | acc, [] => [acc.reverse]
  | acc, c :: rest =>
    if c = '/' then acc.reverse :: splitSlashAux [] rest
    else splitSlashAux (c :: acc) rest

/-- Python s.split on a single slash. -/
def splitSlash (s : String) : List String :=
  (splitSlashAux [] s.data).map (fun cs => String.mk cs)

/-- Python "/".join. -/
def joinSlash : List String → String
  | [] => ""
  | [p] => p
  | p :: rest => p ++ "/" ++ joinSlash rest

/-- Segment-list prefix test (pathlib relative_to succeeds exactly when the
base's segments are a prefix of the target's segments). -/
def segsStarts : List String → List String → Bool
  | [], _ => true
  | _ :: _, [] => false
  | a :: as, b :: bs => a = b && segsStarts as bs

/-- Lexical normalisation of an absolute path, processing segments left to
right over a stack of retained segments, as os-level resolution does once
symlinks are out of the picture: ".." pops (the filesystem root absorbs a
pop on the empty stack), "." and empty segments are skipped. -/
def normAbs : List String → List String → List String
  | acc, [] => acc
  | acc, s :: rest =>
    if s = ".." then normAbs acc.dropLast rest
    else if s = "" ∨ s = "." then normAbs acc rest
    else normAbs (acc ++ [s]) rest

/-- Normalised form of an absolute path given by its segments. -/
def normSegs (l : List String) : List String := normAbs [] l

/-- The stack run of _validate_relative_path over the segments of a
relative path: ".." with an empty stack fails (returns none), otherwise it
pops; "." and empty segments are dropped; other segments are retained. -/
def stackSim : List String → List String → Option (List String)
  | acc, [] => some acc
  | acc, s :: rest =>
    if s = ".." then
      match acc with
      | [] => none
      | _ :: _ => stackSim acc.dropLast rest
    else if s = "" ∨ s = "." then stackSim acc rest
    else stackSim (acc ++ [s]) rest

/-- Segments of a relative path after the leading-slash strip, as both
_validate_relative_path and _resolve_chroot_path see them. -/
def pathSegments (p : String) : List String := splitSlash (lstripSlashes p)

/-- Spec-side predicate: the ".." resolution of p would ascend above the
root it is resolved against (the stack of retained segments is popped while
empty at some point).  This is the spec's own operational definition of a
path that is not fully contained within the root. -/
def ascendsAboveRoot (p : String) : Bool := (stackSim [] (pathSegments p)).isNone

/-- Retained segments of a non-ascending relative path. -/
def cleanedParts (p : String) : List String := (stackSim [] (pathSegments p)).getD []

/-- Embedding of Tools._validate_relative_path: strip leading slashes,
reject a remaining leading slash (dead after the strip, kept from the
source), then run the stack over the "/"-split segments, failing with
PATH_ESCAPE when ".." would pop an empty stack, and return the re-joined
retained segments. -/
def validate_relative_path (path : String) : Except StorageErr String :=
  let path1 := lstripSlashes path
  if startsWithSlash path1 then .error .pathEscape
  else
    match stackSim [] (splitSlash path1) with
    | none => .error .pathEscape
    | some parts => .ok (joinSlash parts)

/-- Embedding of Tools._resolve_chroot_path: strip leading slashes from the
relative path, join it to the base, resolve (lexically, see the module
comment), and require the result to be equal to or a descendant of the
resolved base, else PATH_ESCAPE. -/
def resolve_chroot_path (base : List String) (relative_path : String) :
    Except StorageErr (List String) :=
  let rel := lstripSlashes relative_path
  let target := normAbs [] (base ++ splitSlash rel)
  let baseResolved := normSegs base
  if segsStarts baseResolved target then .ok target else .error .pathEscape

/-- WHITELIST_READONLY of user_storage.py (read-only commands, Uploads). -/
def WHITELIST_READONLY : List String :=
  ["cat", "head", "tail", "less", "more", "nl", "wc", "stat", "file", "du", "tac",
   "ls", "tree", "find",
   "grep", "egrep", "fgrep", "rg", "awk", "sed",
   "sort", "uniq", "cut", "paste", "tr", "fold", "fmt", "column", "rev", "shuf",
   "expand", "unexpand", "pr",
   "join",
   "diff", "diff3", "cmp", "comm",
   "tar", "unzip", "zipinfo", "7z",
   "zcat", "bzcat", "xzcat",
   "md5sum", "sha1sum", "sha256sum", "sha512sum", "b2sum", "cksum",
   "base32", "base64", "basenc",
   "strings", "od", "hexdump", "xxd",
   "jq", "xmllint", "yq",
   "iconv",
   "bc", "dc", "expr", "factor", "numfmt",
   "basename", "dirname", "realpath",
   "echo", "printf",
   "ffprobe", "identify", "exiftool",
   "sqlite3"]

/-- WHITELIST_READWRITE of user_storage.py (read/write commands, Storage
and Documents): the read-only set plus the additional commands. -/
def WHITELIST_READWRITE : List String :=
  WHITELIST_READONLY ++
  ["df", "locate", "which", "whereis",
   "split", "csplit",
   "sdiff", "patch", "colordiff",
   "zip", "7za",
   "gzip", "gunzip", "bzip2", "bunzip2", "xz", "unxz", "lz4", "zstd",
   "sum",
   "uuencode", "uudecode",
   "touch", "mkdir", "rm", "rmdir", "mv", "cp", "ln", "truncate", "mktemp",
   "install", "shred", "rename",
   "chmod",
   "pandoc",
   "dos2unix", "unix2dos", "recode",
   "seq",
   "date", "cal",
   "readlink", "pathchk", "pwd",
   "uname", "nproc", "printenv", "env",
   "timeout", "sleep",
   "yes", "tee", "xargs", "envsubst", "gettext", "tsort", "true", "false",
   "ffmpeg", "magick", "convert",
   "git"]

/-- GIT_WHITELIST_READ of user_storage.py. -/
def GIT_WHITELIST_READ : List String :=
  ["status", "log", "show", "diff", "branch", "tag", "blame", "ls-files",
   "ls-tree", "shortlog", "reflog", "describe", "rev-parse", "rev-list", "cat-file"]

/-- GIT_WHITELIST_WRITE of user_storage.py. -/
def GIT_WHITELIST_WRITE : List String :=
  ["add", "commit", "reset", "restore", "checkout", "rm", "mv", "revert",
   "cherry-pick", "stash", "clean"]

/-- GIT_BLACKLIST of user_storage.py. -/
def GIT_BLACKLIST : List String :=
  ["push", "pull", "fetch", "clone", "remote", "gc", "prune", "filter-branch"]

/-- BLACKLIST_COMMANDS of user_storage.py (always forbidden). -/
def BLACKLIST_COMMANDS : List String :=
  ["bash", "sh", "zsh", "fish", "dash", "csh", "tcsh", "ksh",
   "python", "python3", "perl", "ruby", "node", "php", "lua",
   "exec", "eval", "source",
   "nohup", "disown", "setsid", "screen", "tmux", "at", "batch", "crontab",
   "sudo", "su", "doas", "chown", "chgrp",
   "wget", "curl", "fetch", "ssh", "scp", "sftp", "rsync",
   "nc", "netcat", "ncat", "telnet", "ftp", "ping", "traceroute",
   "dd", "mount", "umount", "kill", "killall", "pkill",
   "reboot", "shutdown", "halt", "poweroff",
   "systemctl", "service", "mkfs", "fdisk", "parted",
   "iptables", "firewall-cmd"]

/-- The whitespace class of the regex escape backslash-s, restricted to its
ASCII members (space, tab, newline, vertical tab, form feed, carriage
return); the dangerous-argument tests in this file stay within ASCII. -/
def isSpaceRe (c : Char) : Bool :=
  c = ' ' || c = '\t' || c = '\n' || c = '\r' || c = Char.ofNat 11 || c = Char.ofNat 12

/-- Character-list scan equivalent to searching DANGEROUS_ARGS_PATTERN:
a position matches when it holds one of the single characters of the class
(semicolon, ampersand, pipe, backtick, dollar, newline, carriage return),
or a greater-than or less-than sign that is doubled or followed by
whitespace.  The two-character alternatives of the regex that begin with
ampersand, pipe or dollar are subsumed by the character class. -/
def dangerousScan : List Char → Bool
  | [] => false
  | c :: rest =>
    if c = ';' || c = '&' || c = '|' || c = Char.ofNat 96 || c = '$' || c = '\n' || c = '\r' then
      true
    else if c = '>' || c = '<' then
      match rest with
      | [] => dangerousScan rest
      | d :: _ => if d = c || isSpaceRe d then true else dangerousScan rest
    else dangerousScan rest

/-- DANGEROUS_ARGS_PATTERN.search(s) is not None. -/
def dangerousArgsMatch (s : String) : Bool := dangerousScan s.data

/-- Embedding of Tools._validate_git_command. -/
def validate_git_command (args : List String) : Option StorageErr :=
  match args with
  | [] => some .argumentForbidden
  | subcmd :: _ =>
    if subcmd ∈ GIT_BLACKLIST then some .commandForbidden
    else if subcmd ∉ GIT_WHITELIST_READ ∧ subcmd ∉ GIT_WHITELIST_WRITE then
      some .commandForbidden
    else none

/-- Embedding of Tools._validate_command: the global blacklist is checked
first and unconditionally, then whitelist membership, then the git
subcommand policy when the command is git and arguments were supplied. -/
def validate_command (cmd : String) (whitelist : List String)
    (args : Option (List String)) : Option StorageErr :=
  if cmd ∈ BLACKLIST_COMMANDS then some .commandForbidden
  else if cmd ∉ whitelist then some .commandForbidden
  else if cmd = "git" then
    match args with
    | some a => validate_git_command a
    | none => none
  else none

/-- Embedding of Tools._validate_args: each argument is scanned against
DANGEROUS_ARGS_PATTERN, and in read-only mode the literal -i is also
forbidden. -/
def validate_args (args : List String) (readonly : Bool) : Option StorageErr :=
  match args with
  | [] => none
  | a :: rest =>
    if dangerousArgsMatch a then some .argumentForbidden
    else if readonly ∧ a = "-i" then some .argumentForbidden
    else validate_args rest readonly

/-- Embedding of Tools._validate_path_args: each argument with a leading
slash is rejected with PATH_ESCAPE; each argument containing ".." is
resolved against the chroot and must stay inside it. -/
def validate_path_args (args : List String) (chroot : List String) : Option StorageErr :=
  match args with
  | [] => none
  | a :: rest =>
    if startsWithSlash a then some .pathEscape
    else if hasSub ".." a then
      if segsStarts (normSegs chroot) (normAbs [] (chroot ++ splitSlash a)) then
        validate_path_args rest chroot
      else some .pathEscape
    else validate_path_args rest chroot

/-- The validation pipeline that store_storage_exec, store_storage_edit_exec,
store_documents_exec and store_documents_edit_exec all run, in source
order, before handing the command to _exec_command: _validate_command
against WHITELIST_READWRITE with the argument list (enabling the git
sub-policy), _validate_args in read-write mode, then _validate_path_args
against the operation's chroot.  A some result means the corresponding
StorageError is raised before the command is executed. -/
def readwrite_exec_check (chroot : List String) (cmd : String)
    (args : List String) : Option StorageErr :=
  match validate_command cmd WHITELIST_READWRITE (some args) with
  | some e => some e
  | none =>
    match validate_args args false with
    | some e => some e
    | none => validate_path_args args chroot

/-- Outcome of the checks of store_uploads_exec before _exec_command. -/
inductive UploadsOutcome where
  | noFiles
  | failed (e : StorageErr)
  | validated
  deriving DecidableEq, Repr

/-- The pre-execution phase of store_uploads_exec: an early plain-failure
return when the conversation's upload directory does not exist, then
_validate_command against WHITELIST_READONLY without arguments, then
_validate_args in read-only mode, then _validate_path_args. -/
def uploads_exec_check (chrootExists : Bool) (chroot : List String)
    (cmd : String) (args : List String) : UploadsOutcome :=
  if chrootExists then
    match validate_command cmd WHITELIST_READONLY none with
    | some e => .failed e
    | none =>
      match validate_args args true with
      | some e => .failed e
      | none =>
        match validate_path_args args chroot with
        | some e => .failed e
        | none => .validated
  else .noFiles

/-- State of one zone (Storage or Documents): the files under data/, the
lock files under locks/ (path without the ".lock" suffix, paired with the
file's content), and the files under editzone/ as
(conversation id, path below the conversation directory, content). -/
structure ZoneState where
  data : List (String × String)
  locks : List (String × LockContent)
  editzone : List (String × String × String)
  deriving DecidableEq, Repr

/-- Content of the first lock file stored at path p. -/
def lookupLock (l : List (String × LockContent)) (p : String) : Option LockContent :=
  (l.find? (fun e => e.1 == p)).map (fun e => e.2)

/-- Deletion of the lock file at path p. -/
def removeLock (p : String) (l : List (String × LockContent)) :
    List (String × LockContent) :=
  l.filter (fun e => !(e.1 == p))

/-- Embedding of Tools._create_lock's write_text: the lock file at p is
(over)written with a fresh record. -/
def setLock (p : String) (v : LockContent) (l : List (String × LockContent)) :
    List (String × LockContent) :=
  (p, v) :: removeLock p l

/-- Existence test for the lock file at path p. -/
def lockFileExists (l : List (String × LockContent)) (p : String) : Bool :=
  l.any (fun e => e.1 == p)

/-- q is the path p itself or lies below the directory p. -/
def underPath (p q : String) : Bool := q == p || strStarts (p ++ "/") q

/-- data/<p> exists: a file is stored at p, or p is a directory holding
some file. -/
def dataExists (st : ZoneState) (p : String) : Bool :=
  st.data.any (fun e => underPath p e.1)

/-- data/<p> is a directory (some file lies strictly below it). -/
def dataIsDir (st : ZoneState) (p : String) : Bool :=
  st.data.any (fun e => strStarts (p ++ "/") e.1)

/-- Content of the file stored at p under data/. -/
def dataGet (d : List (String × String)) (p : String) : Option String :=
  (d.find? (fun e => e.1 == p)).map (fun e => e.2)

/-- Writing a file at p under data/ (replacing any file stored there). -/
def setData (p v : String) (d : List (String × String)) : List (String × String) :=
  (p, v) :: d.filter (fun e => !(e.1 == p))

/-- editzone/<conv>/<p> exists (as a file or a directory). -/
def ezExistsAt (st : ZoneState) (conv p : String) : Bool :=
  st.editzone.any (fun e => e.1 == conv && underPath p e.2.1)

/-- editzone/<conv>/<p> is a directory. -/
def ezIsDir (st : ZoneState) (conv p : String) : Bool :=
  st.editzone.any (fun e => e.1 == conv && strStarts (p ++ "/") e.2.1)

/-- editzone/<conv> exists: the conversation has some file in its edit
zone (\_rm_with_empty_parents removes the conversation directory itself
once it is empty, so existence coincides with being non-empty). -/
def ezRootExists (conv : String) (st : ZoneState) : Bool :=
  st.editzone.any (fun e => e.1 == conv)

/-- Content of the file editzone/<conv>/<p>. -/
def ezGet (ez : List (String × String × String)) (conv p : String) : Option String :=
  (ez.find? (fun e => e.1 == conv && e.2.1 == p)).map (fun e => e.2.2)

/-- Deletion (\_rm_with_empty_parents) of editzone/<conv>/<p>: the file, or
the whole tree when p is a directory. -/
def removeEzUnder (conv p : String) (ez : List (String × String × String)) :
    List (String × String × String) :=
  ez.filter (fun e => !(e.1 == conv && underPath p e.2.1))

/-- Writing the file editzone/<conv>/<p>. -/
def setEz (conv p v : String) (ez : List (String × String × String)) :
    List (String × String × String) :=
  (conv, p, v) :: ez.filter (fun e => !(e.1 == conv && e.2.1 == p))

/-- Final segment of a relative path (os.path.basename for the paths the
code builds, which carry no trailing slash). -/
def lastSeg (p : String) : String :=
  match (splitSlash p).getLast? with
  | some s => s
  | none => p

/-- Embedding of Tools._check_lock given the content of the lock file at
the path (none when the file does not exist): text that json.loads rejects
is passed over; a decoded record whose conv_id differs from the caller's
(including a missing conv_id, which dict.get returns as None) raises
FILE_LOCKED carrying the record's conv_id, locked_at and path fields. -/
def check_lock (lc : Option LockContent) (conv : String) : Option StorageErr :=
  match lc with
  | none => none
  | some .undecodable => none
  | some (.obj convId _ lockedAt path) =>
    if convId = some conv then none
    else some (.fileLocked convId lockedAt path)

/-- shutil.copy2(data/<p>, editzone/<conv>/<p>) for a regular file: when
the destination exists as a directory the file is copied into it under its
base name, otherwise the destination file is overwritten.  The none branch
of dataGet is unreachable in edit_open (the source exists and is not a
directory). -/
def copy2ToEz (conv p : String) (st : ZoneState) : ZoneState :=
  match dataGet st.data p with
  | none => st
  | some v =>
    if ezIsDir st conv p then
      { st with editzone := setEz conv (p ++ "/" ++ lastSeg p) v st.editzone }
    else
      { st with editzone := setEz conv p v st.editzone }

/-- shutil.copytree(data/<p>, editzone/<conv>/<p>) when the destination
does not exist: every file below p is copied. -/
def copyTreeToEz (conv p : String) (st : ZoneState) : ZoneState :=
  let copied := (st.data.filter (fun e => strStarts (p ++ "/") e.1)).map (fun e => (conv, e.1, e.2))
  { st with editzone := copied ++ st.editzone }

/-- Embedding of Tools.store_storage_edit_open: validate the path, require
data/<path> to exist, check the lock, write a fresh lock record, then copy
the file (copy2) or directory (copytree) into the conversation's edit
zone.  copytree onto an existing destination raises FileExistsError, which
the tool's generic handler reports after the lock record has already been
rewritten. -/
def storage_edit_open (conv userId : String) (now : Nat) (path : String)
    (st : ZoneState) : ZoneState × Option StorageErr :=
  match validate_relative_path path with
  | .error e => (st, some e)
  | .ok p =>
    if dataExists st p then
      match check_lock (lookupLock st.locks p) conv with
      | some e => (st, some e)
      | none =>
        let st1 := { st with
          locks := setLock p (.obj (some conv) (some userId) (.at now) (some p)) st.locks }
        if dataIsDir st1 p then
          if ezExistsAt st1 conv p then (st1, some .pyError)
          else (copyTreeToEz conv p st1, none)
        else (copy2ToEz conv p st1, none)
    else (st, some .fileNotFound)

/-- Embedding of Tools.store_documents_edit_open, whose body performs the
same sequence as store_storage_edit_open on the Documents zone state. -/
def documents_edit_open (conv userId : String) (now : Nat) (path : String)
    (st : ZoneState) : ZoneState × Option StorageErr :=
  storage_edit_open conv userId now path st

/-- Embedding of Tools.store_storage_edit_cancel: validate the path, then
remove the edit-zone copy if it exists and the lock record if it exists;
data/ is never touched. -/
def storage_edit_cancel (conv : String) (path : String) (st : ZoneState) :
    ZoneState × Option StorageErr :=
  match validate_relative_path path with
  | .error e => (st, some e)
  | .ok p =>
    let st1 :=
      if ezExistsAt st conv p then { st with editzone := removeEzUnder conv p st.editzone }
      else st
    let st2 :=
      if lockFileExists st1.locks p then { st1 with locks := removeLock p st1.locks }
      else st1
    (st2, none)

/-- Embedding of Tools.store_documents_edit_cancel, whose body performs the
same sequence as store_storage_edit_cancel on the Documents zone state. -/
def documents_edit_cancel (conv : String) (path : String) (st : ZoneState) :
    ZoneState × Option StorageErr :=
  storage_edit_cancel conv path st

/-- max_bytes computed by _validate_content_size from the configured
max_file_size_mb. -/
def max_bytes (maxMB : Nat) : Nat := maxMB * 1024 * 1024

/-- Embedding of Tools._validate_content_size: the UTF-8 byte length of the
content must not exceed max_bytes. -/
def validate_content_size (maxMB : Nat) (content : String) : Option StorageErr :=
  if content.utf8ByteSize > max_bytes maxMB then some .quotaExceeded else none

/-- Embedding of Tools.store_storage_write: size check first, then chroot
resolution of the target inside zoneRoot/data, then the write (append adds
to an existing file's content, otherwise the file is replaced). -/
def storage_write (maxMB : Nat) (zoneRoot : List String) (path content : String)
    (append : Bool) (st : ZoneState) : ZoneState × Option StorageErr :=
  let chroot := zoneRoot ++ ["data"]
  match validate_content_size maxMB content with
  | some e => (st, some e)
  | none =>
    match resolve_chroot_path chroot path with
    | .error e => (st, some e)
    | .ok target =>
      let rel := joinSlash (target.drop chroot.length)
      let newContent :=
        match dataGet st.data rel with
        | some v => if append then v ++ content else content
        | none => content
      ({ st with data := setData rel newContent st.data }, none)

/-- Embedding of Tools.store_documents_write: identical data-map effect to
store_storage_write (the surrounding _init_git_repo and _git_commit only
touch repository metadata, outside the modelled map). -/
def documents_write (maxMB : Nat) (zoneRoot : List String) (path content : String)
    (append : Bool) (st : ZoneState) : ZoneState × Option StorageErr :=
  storage_write maxMB zoneRoot path content append st

/-- Embedding of Tools.store_storage_edit_write: ZONE_FORBIDDEN when the
conversation's edit zone does not exist, then the same size check,
resolution (inside zoneRoot/editzone/conv) and write as store_storage_write,
acting on the edit-zone files. -/
def storage_edit_write (maxMB : Nat) (zoneRoot : List String) (conv path content : String)
    (append : Bool) (st : ZoneState) : ZoneState × Option StorageErr :=
  let chroot := zoneRoot ++ ["editzone", conv]
  if ezRootExists conv st then
    match validate_content_size maxMB content with
    | some e => (st, some e)
    | none =>
      match resolve_chroot_path chroot path with
      | .error e => (st, some e)
      | .ok target =>
        let rel := joinSlash (target.drop chroot.length)
        let newContent :=
          match ezGet st.editzone conv rel with
          | some v => if append then v ++ content else content
          | none => content
        ({ st with editzone := setEz conv rel newContent st.editzone }, none)
  else (st, some .zoneForbidden)

/-- Embedding of Tools.store_documents_edit_write, identical to
store_storage_edit_write on the Documents zone state. -/
def documents_edit_write (maxMB : Nat) (zoneRoot : List String) (conv path content : String)
    (append : Bool) (st : ZoneState) : ZoneState × Option StorageErr :=
  storage_edit_write maxMB zoneRoot conv path content append st

/-- One step of the lock sweep of store_maintenance, processing the lock
file at entry.1 with content entry.2 against the state st: an undecodable
record is removed unconditionally; a decoded record with a parseable
locked_at older than maxAge has the edit-zone copy of its conv_id removed
(when the conv_id field is a non-empty string) and is itself removed; a
record with a missing or unparseable locked_at is left in place. -/
def maintenance_lock_step (now maxAge : Nat) (st : ZoneState)
    (entry : String × LockContent) : ZoneState :=
  match entry.2 with
  | .undecodable => { st with locks := removeLock entry.1 st.locks }
  | .obj convId _ lockedAt _ =>
    match lockedAt with
    | .at t =>
      if now - t > maxAge then
        let convStr := match convId with | some c => c | none => ""
        let st1 :=
          if convStr = "" then st
          else { st with editzone := removeEzUnder convStr entry.1 st.editzone }
        { st1 with locks := removeLock entry.1 st1.locks }
      else st
    | _ => st

/-- The per-zone body of Tools.store_maintenance: sweep the snapshot of
lock files (expired and corrupted records), then remove every remaining
edit-zone file whose exact path has no lock file. -/
def maintenance_zone (now maxAge : Nat) (st : ZoneState) : ZoneState :=
  let st1 := st.locks.foldl (maintenance_lock_step now maxAge) st
  { st1 with editzone :=
      st1.editzone.filter (fun e => st1.locks.any (fun l => l.1 == e.2.1)) }

/-- The two zones store_maintenance sweeps for a user. -/
structure UserState where
  storage : ZoneState
  documents : ZoneState
  deriving DecidableEq, Repr

/-- Embedding of Tools.store_maintenance: the sweep runs over the Storage
zone and then the Documents zone, whose states are independent. -/
def store_maintenance (now maxAge : Nat) (u : UserState) : UserState :=
  ⟨maintenance_zone now maxAge u.storage, maintenance_zone now maxAge u.documents⟩

theorem dropLast_append_ne {α : Type} (l1 l2 : List α) (h : l2 ≠ []) :
    (l1 ++ l2).dropLast = l1 ++ l2.dropLast := by
  induction l1 with
  | nil => rfl
  | cons a t ih =>
    cases t with
    | nil =>
      cases l2 with
      | nil => exact absurd rfl h
      | cons b u => rfl
    | cons b u => simpa using ih

theorem normAbs_append (l1 l2 : List String) :
    ∀ acc, normAbs acc (l1 ++ l2) = normAbs (normAbs acc l1) l2 := by
  induction l1 with
  | nil => intro acc; rfl
  | cons s t ih =>
    intro acc
    simp only [List.cons_append, normAbs]
    by_cases h1 : s = ".."
    · simp [h1, ih]
    · by_cases h2 : s = "" ∨ s = "."
      · simp [h1, h2, ih]
      · simp [h1, h2, ih]

theorem normAbs_plain (l : List String) :
    (∀ s ∈ l, ¬s = "" ∧ ¬s = "." ∧ ¬s = "..") → ∀ acc, normAbs acc l = acc ++ l := by
  induction l with
  | nil => intro _ acc; simp [normAbs]
  | cons s t ih =>
    intro h acc
    obtain ⟨hs, ht⟩ := List.forall_mem_cons.mp h
    simp only [normAbs]
    rw [if_neg hs.2.2, if_neg (by tauto)]
    rw [ih ht (acc ++ [s])]
    simp

theorem stackSim_normAbs (base : List String) :
    ∀ (l acc res : List String), stackSim acc l = some res →
      normAbs (base ++ acc) l = base ++ res := by
  intro l
  induction l with
  | nil =>
    intro acc res h
    simp only [stackSim, Option.some.injEq] at h
    simp [normAbs, h]
  | cons s t ih =>
    intro acc res h
    simp only [stackSim] at h
    simp only [normAbs]
    by_cases h1 : s = ".."
    · rw [if_pos h1] at h ⊢
      cases acc with
      | nil => simp at h
      | cons a as =>
        rw [dropLast_append_ne _ _ (by simp)]
        exact ih (a :: as).dropLast res h
    · rw [if_neg h1] at h ⊢
      by_cases h2 : s = "" ∨ s = "."
      · rw [if_pos h2] at h ⊢
        exact ih acc res h
      · rw [if_neg h2] at h ⊢
        rw [List.append_assoc]
        exact ih (acc ++ [s]) res h

theorem segsStarts_append (l r : List String) : segsStarts l (l ++ r) = true := by
  induction l with
  | nil => rfl
  | cons a t ih => simp [segsStarts, ih]

theorem any_filter_not {α : Type} (l : List α) (f : α → Bool) :
    (l.filter (fun x => !f x)).any f = false := by
  induction l with
  | nil => rfl
  | cons a t ih =>
    cases h : f a <;> simp [List.filter_cons, h, ih]

theorem find?_filter_not {α : Type} (l : List α) (f : α → Bool) :
    (l.filter (fun x => !f x)).find? f = none := by
  induction l with
  | nil => rfl
  | cons a t ih =>
    cases h : f a <;> simp [List.filter_cons, List.find?_cons, h, ih]

theorem filter_self_idem {α : Type} (l : List α) (g : α → Bool) :
    (l.filter g).filter g = l.filter g := by
  induction l with
  | nil => rfl
  | cons a t ih =>
    cases h : g a <;> simp [List.filter_cons, h, ih]

theorem removeLock_idem (p : String) (l : List (String × LockContent)) :
    removeLock p (removeLock p l) = removeLock p l := by
  unfold removeLock
  exact filter_self_idem l _

theorem lookupLock_removeLock (p : String) (l : List (String × LockContent)) :
    lookupLock (removeLock p l) p = none := by
  unfold lookupLock removeLock
  rw [find?_filter_not l (fun e => e.1 == p)]
  rfl

theorem dataExists_of_get (st : ZoneState) (p v : String)
    (h : dataGet st.data p = some v) : dataExists st p = true := by
  unfold dataGet at h
  unfold dataExists
  cases hf : st.data.find? (fun e => e.1 == p) with
  | none => rw [hf] at h; simp at h
  | some entry =>
    have hm := List.mem_of_find?_eq_some hf
    have hp := List.find?_some hf
    rw [List.any_eq_true]
    exact ⟨entry, hm, by simp only [underPath, hp, Bool.true_or]⟩

theorem storage_edit_open_data (conv userId : String) (now : Nat) (path : String)
    (st : ZoneState) : (storage_edit_open conv userId now path st).1.data = st.data := by
  unfold storage_edit_open
  split
  · rfl
  · split
    · split
      · rfl
      · dsimp only
        split
        · split
          · rfl
          · simp [copyTreeToEz]
        · unfold copy2ToEz
          split
          · rfl
          · split <;> rfl
    · rfl

/-- C1 (amended): for every relative path p whose ".." resolution would
ascend above the chroot root, _validate_relative_path fails with
PATH_ESCAPE; for every p fully contained within the root (no such ascent),
_resolve_chroot_path succeeds and returns the root joined with p's retained
segments, which is equal to or a descendant of the root; and whenever
_resolve_chroot_path succeeds, its result is equal to or a descendant of
the root — but _resolve_chroot_path itself does not fail on every
ascending p (see the counterexample). -/
theorem c1_path_resolution (base : List String) (p : String)
    (hbase : ∀ s ∈ base, ¬s = "" ∧ ¬s = "." ∧ ¬s = "..") :
    (ascendsAboveRoot p = true → validate_relative_path p = .error .pathEscape) ∧
    (ascendsAboveRoot p = false →
      resolve_chroot_path base p = .ok (base ++ cleanedParts p) ∧
      segsStarts base (base ++ cleanedParts p) = true) ∧
    (∀ t, resolve_chroot_path base p = .ok t → segsStarts base t = true) := by
  have hbaseN : normSegs base = base := by
    unfold normSegs
    rw [normAbs_plain base hbase []]
    rfl
  refine ⟨?_, ?_, ?_⟩
  · intro ha
    unfold validate_relative_path
    by_cases hs : startsWithSlash (lstripSlashes p)
    · simp [hs]
    · unfold ascendsAboveRoot pathSegments at ha
      cases hsim : stackSim [] (splitSlash (lstripSlashes p)) with
      | none => simp [hs, hsim]
      | some parts => rw [hsim] at ha; simp at ha
  · intro ha
    unfold ascendsAboveRoot at ha
    cases hsim : stackSim [] (pathSegments p) with
    | none => rw [hsim] at ha; simp at ha
    | some res =>
      have hres : cleanedParts p = res := by
        unfold cleanedParts
        rw [hsim]
        rfl
      have htarget : normAbs [] (base ++ splitSlash (lstripSlashes p)) = base ++ res := by
        rw [normAbs_append base (splitSlash (lstripSlashes p)) []]
        have hb : normAbs [] base = base := hbaseN
        rw [hb]
        have := stackSim_normAbs base (splitSlash (lstripSlashes p)) [] res hsim
        simpa using this
      constructor
      · unfold resolve_chroot_path
        dsimp only
        rw [htarget, hbaseN, hres]
        rw [if_pos (segsStarts_append base res)]
      · rw [hres]
        exact segsStarts_append base res
  · intro t h
    unfold resolve_chroot_path at h
    dsimp only at h
    rw [hbaseN] at h
    by_cases hss : segsStarts base (normAbs [] (base ++ splitSlash (lstripSlashes p))) = true
    · rw [if_pos hss] at h
      cases h
      exact hss
    · rw [if_neg hss] at h
      cases h

/-- C1 counterexample: the relative path ../data/f resolved against the
root u/data ascends above the root (its first segment pops the empty
stack), yet _resolve_chroot_path accepts it, because the OS-level
resolution re-enters the root through the root's own final segment name;
only _validate_relative_path rejects it. -/
theorem c1_counterexample :
    ascendsAboveRoot "../data/f" = true ∧
    resolve_chroot_path ["u", "data"] "../data/f" = .ok ["u", "data", "f"] ∧
    validate_relative_path "../data/f" = .error .pathEscape :=
  ⟨rfl, rfl, rfl⟩

/-- C1 witness: concrete instances of the amended theorem. -/
theorem c1_witness :
    resolve_chroot_path ["u", "data"] "a/b.txt" = .ok (["u", "data"] ++ cleanedParts "a/b.txt") ∧
    validate_relative_path "../../x" = .error .pathEscape := by
  have h1 := c1_path_resolution ["u", "data"] "a/b.txt" (by decide)
  have h2 := c1_path_resolution ["u", "data"] "../../x" (by decide)
  exact ⟨(h1.2.1 (by decide)).1, h2.1 (by decide)⟩

/-- C2 (amended): exec of rm with arguments -rf / in the Storage and
Documents zones, direct or edit-zone (they share the modelled validation
pipeline), fails with PATH_ESCAPE raised by the absolute-path check of
_validate_path_args, before _exec_command is ever reached; in the Uploads
zone the same call fails earlier with COMMAND_FORBIDDEN because rm is not
in the read-only whitelist (given the conversation's upload directory
exists at all). -/
theorem c2_exec_rm_rf (chroot chroot2 : List String) :
    readwrite_exec_check chroot "rm" ["-rf", "/"] = some .pathEscape ∧
    uploads_exec_check true chroot2 "rm" ["-rf", "/"] = .failed .commandForbidden :=
  ⟨rfl, rfl⟩

/-- C2 counterexample: in the Storage zone the call fails with PATH_ESCAPE,
not ARGUMENT_FORBIDDEN as the claim states. -/
theorem c2_counterexample :
    readwrite_exec_check ["u1", "Storage", "data"] "rm" ["-rf", "/"] = some .pathEscape ∧
    ¬ readwrite_exec_check ["u1", "Storage", "data"] "rm" ["-rf", "/"] =
        some .argumentForbidden :=
  ⟨rfl, by decide⟩

/-- C3 (amended): argument validation (outside read-only mode) fails with
ARGUMENT_FORBIDDEN exactly when some argument matches
DANGEROUS_ARGS_PATTERN, that is, contains one of the characters semicolon,
ampersand, pipe, backtick, dollar, newline, carriage return, or a
greater-than or less-than sign that is doubled or followed by whitespace;
the validation succeeds exactly when every argument is free of these. -/
theorem c3_argument_scan (args : List String) :
    validate_args args false = none ↔ ∀ a ∈ args, dangerousArgsMatch a = false := by
  induction args with
  | nil => simp [validate_args]
  | cons a t ih =>
    simp only [validate_args]
    cases h : dangerousArgsMatch a
    · simp [h, ih]
    · simp [h]

/-- C3 counterexample: the argument a>b contains the character > of the
claim's list yet passes validation (the pattern only matches > when
doubled or followed by whitespace); and the argument a$b contains none of
the claim's listed sequences (in particular neither dollar-parenthesis nor
dollar-brace) yet fails, because the pattern's character class contains a
bare dollar sign. -/
theorem c3_counterexample :
    "a>b".data.contains '>' = true ∧
    validate_args ["a>b"] false = none ∧
    hasSub "$(" "a$b" = false ∧
    validate_args ["a$b"] false = some .argumentForbidden :=
  ⟨by decide, rfl, by decide, rfl⟩

/-- C4 (code bug): a conversation opens the directory P for editing (lock
record at locks/P.lock, edit-zone copy of P's files); an immediately
following store_maintenance run, with the lock fresh (age 0, threshold 24),
keeps the lock but removes the edit-zone file editzone/c/P/f.txt, because
the orphan sweep looks up a lock at the file's exact path
(locks/P/f.txt.lock) and ignores the fresh directory lock. -/
theorem c4_maintenance_bug :
    storage_edit_open "c" "u" 100 "P" ⟨[("P/f.txt", "orig")], [], []⟩ =
      (⟨[("P/f.txt", "orig")],
        [("P", .obj (some "c") (some "u") (.at 100) (some "P"))],
        [("c", "P/f.txt", "orig")]⟩, none) ∧
    ¬ (100 - 100 > 24) ∧
    store_maintenance 100 24
      ⟨⟨[("P/f.txt", "orig")],
        [("P", .obj (some "c") (some "u") (.at 100) (some "P"))],
        [("c", "P/f.txt", "orig")]⟩, ⟨[], [], []⟩⟩ =
      ⟨⟨[("P/f.txt", "orig")],
        [("P", .obj (some "c") (some "u") (.at 100) (some "P"))],
        []⟩, ⟨[], [], []⟩⟩ :=
  ⟨rfl, by decide, rfl⟩

theorem bool_not_true {b : Bool} (h : b = false) : ¬ b = true := by simp [h]

theorem cancel_clears (conv path p : String) (st : ZoneState)
    (hv : validate_relative_path path = .ok p) :
    (storage_edit_cancel conv path st).2 = none ∧
    (storage_edit_cancel conv path st).1.data = st.data ∧
    lockFileExists (storage_edit_cancel conv path st).1.locks p = false ∧
    ezExistsAt (storage_edit_cancel conv path st).1 conv p = false := by
  unfold storage_edit_cancel
  rw [hv]
  dsimp only
  by_cases h1 : ezExistsAt st conv p = true
  · rw [if_pos h1]
    dsimp only
    by_cases h2 : lockFileExists st.locks p = true
    · rw [if_pos h2]
      exact ⟨rfl, rfl, any_filter_not _ _, any_filter_not _ _⟩
    · rw [if_neg h2]
      refine ⟨rfl, rfl, by simpa using h2, any_filter_not _ _⟩
  · rw [if_neg h1]
    by_cases h2 : lockFileExists st.locks p = true
    · rw [if_pos h2]
      refine ⟨rfl, rfl, any_filter_not _ _, by simpa using h1⟩
    · rw [if_neg h2]
      exact ⟨rfl, rfl, by simpa using h2, by simpa using h1⟩

/-- C5: an edit_open that succeeds, followed by edit_cancel by the same
conversation on the same path, leaves data/ exactly as before the open,
and leaves no lock record at locks/<path>.lock and no edit-zone entry at
editzone/<conv>/<path>; the cancel itself reports success. -/
theorem c5_open_cancel (st st1 : ZoneState) (conv userId : String) (now : Nat)
    (path p : String)
    (hv : validate_relative_path path = .ok p)
    (hopen : storage_edit_open conv userId now path st = (st1, none)) :
    (storage_edit_cancel conv path st1).2 = none ∧
    (storage_edit_cancel conv path st1).1.data = st.data ∧
    lockFileExists (storage_edit_cancel conv path st1).1.locks p = false ∧
    ezExistsAt (storage_edit_cancel conv path st1).1 conv p = false := by
  have hdata : st1.data = st.data := by
    have h := storage_edit_open_data conv userId now path st
    rw [hopen] at h
    exact h
  obtain ⟨a, b, c, d⟩ := cancel_clears conv path p st1 hv
  exact ⟨a, b.trans hdata, c, d⟩

/-- C5 witness: concrete run of edit_open then edit_cancel on a one-file
zone. -/
theorem c5_witness :
    (storage_edit_cancel "c" "a.txt"
       ⟨[("a.txt", "hi")],
        [("a.txt", .obj (some "c") (some "u") (.at 5) (some "a.txt"))],
        [("c", "a.txt", "hi")]⟩).2 = none ∧
    (storage_edit_cancel "c" "a.txt"
       ⟨[("a.txt", "hi")],
        [("a.txt", .obj (some "c") (some "u") (.at 5) (some "a.txt"))],
        [("c", "a.txt", "hi")]⟩).1.data = [("a.txt", "hi")] ∧
    lockFileExists (storage_edit_cancel "c" "a.txt"
       ⟨[("a.txt", "hi")],
        [("a.txt", .obj (some "c") (some "u") (.at 5) (some "a.txt"))],
        [("c", "a.txt", "hi")]⟩).1.locks "a.txt" = false ∧
    ezExistsAt (storage_edit_cancel "c" "a.txt"
       ⟨[("a.txt", "hi")],
        [("a.txt", .obj (some "c") (some "u") (.at 5) (some "a.txt"))],
        [("c", "a.txt", "hi")]⟩).1 "c" "a.txt" = false :=
  c5_open_cancel ⟨[("a.txt", "hi")], [], []⟩
    ⟨[("a.txt", "hi")],
     [("a.txt", .obj (some "c") (some "u") (.at 5) (some "a.txt"))],
     [("c", "a.txt", "hi")]⟩ "c" "u" 5 "a.txt" "a.txt" rfl rfl

/-- C6: when a well-formed lock record exists at the path (a decoded JSON
object whose conv_id is some other conversation), edit_open on an existing
data path fails with FILE_LOCKED, and the error carries the owning
conversation id and the record's locked_at timestamp (and path). -/
theorem c6_locked_by_other (st : ZoneState) (conv userId : String) (now : Nat)
    (path p c2 : String) (u2 : Option String) (t : TimeField) (pa : Option String)
    (hv : validate_relative_path path = .ok p)
    (hex : dataExists st p = true)
    (hlock : lookupLock st.locks p = some (.obj (some c2) u2 t pa))
    (hne : ¬ c2 = conv) :
    documents_edit_open conv userId now path st =
      (st, some (.fileLocked (some c2) t pa)) := by
  unfold documents_edit_open storage_edit_open
  rw [hv]
  dsimp only
  rw [if_pos hex, hlock]
  unfold check_lock
  dsimp only
  rw [if_neg (by simpa using hne)]

/-- C6 witness: a concrete lock held by convA blocks convB with
FILE_LOCKED naming convA and the lock's timestamp. -/
theorem c6_witness :
    documents_edit_open "convB" "u" 9 "a.txt"
      ⟨[("a.txt", "hi")],
       [("a.txt", .obj (some "convA") (some "u") (.at 1) (some "a.txt"))], []⟩ =
      (⟨[("a.txt", "hi")],
        [("a.txt", .obj (some "convA") (some "u") (.at 1) (some "a.txt"))], []⟩,
       some (.fileLocked (some "convA") (.at 1) (some "a.txt"))) :=
  c6_locked_by_other
    ⟨[("a.txt", "hi")],
     [("a.txt", .obj (some "convA") (some "u") (.at 1) (some "a.txt"))], []⟩
    "convB" "u" 9 "a.txt" "a.txt" "convA" (some "u") (.at 1) (some "a.txt")
    rfl (by decide) rfl (by decide)

/-- C7: a write whose content exceeds the configured maximum file size
fails with QUOTA_EXCEEDED and leaves the state (in particular the target
file) unmodified, in all four write operations: direct Storage and
Documents writes unconditionally, and the edit-zone writes whenever the
conversation's edit zone is open (without it they fail ZONE_FORBIDDEN
before the size check). -/
theorem c7_quota (maxMB : Nat) (zoneRoot : List String) (path content : String)
    (append : Bool) (st : ZoneState) (conv : String)
    (hsize : content.utf8ByteSize > max_bytes maxMB) :
    storage_write maxMB zoneRoot path content append st = (st, some .quotaExceeded) ∧
    documents_write maxMB zoneRoot path content append st = (st, some .quotaExceeded) ∧
    (ezRootExists conv st = true →
      storage_edit_write maxMB zoneRoot conv path content append st =
        (st, some .quotaExceeded)) ∧
    (ezRootExists conv st = true →
      documents_edit_write maxMB zoneRoot conv path content append st =
        (st, some .quotaExceeded)) := by
  have hvc : validate_content_size maxMB content = some .quotaExceeded := by
    unfold validate_content_size
    rw [if_pos hsize]
  have hsw : storage_write maxMB zoneRoot path content append st = (st, some .quotaExceeded) := by
    unfold storage_write
    rw [hvc]
  have hew : ezRootExists conv st = true →
      storage_edit_write maxMB zoneRoot conv path content append st =
        (st, some .quotaExceeded) := by
    intro hez
    unfold storage_edit_write
    rw [if_pos hez, hvc]
  exact ⟨hsw, hsw, hew, hew⟩

/-- C7 witness: with the maximum size configured to 0 MB, a one-byte write
is rejected with QUOTA_EXCEEDED and the state is returned unchanged. -/
theorem c7_witness :
    storage_write 0 ["r"] "f.txt" "a" false ⟨[], [], []⟩ =
      (⟨[], [], []⟩, some .quotaExceeded) ∧
    storage_edit_write 0 ["r"] "c" "f.txt" "a" false ⟨[], [], [("c", "x", "y")]⟩ =
      (⟨[], [], [("c", "x", "y")]⟩, some .quotaExceeded) := by
  have h1 := c7_quota 0 ["r"] "f.txt" "a" false ⟨[], [], []⟩ "c" (by decide)
  have h2 := c7_quota 0 ["r"] "f.txt" "a" false ⟨[], [], [("c", "x", "y")]⟩ "c" (by decide)
  exact ⟨h1.1, h2.2.2.1 (by decide)⟩

/-- C8: every command of the global blacklist is rejected with
COMMAND_FORBIDDEN by _validate_command, whichever of the two zone
whitelists is supplied and whatever the arguments, because the blacklist
is checked first. -/
theorem c8_blacklist (cmd : String) (whitelist : List String)
    (args : Option (List String))
    (hmem : cmd ∈ BLACKLIST_COMMANDS)
    (hwl : whitelist = WHITELIST_READONLY ∨ whitelist = WHITELIST_READWRITE) :
    validate_command cmd whitelist args = some .commandForbidden := by
  unfold validate_command
  rw [if_pos hmem]

/-- C8 witness: bash against the read-only whitelist and wget against the
read-write whitelist are both rejected with COMMAND_FORBIDDEN. -/
theorem c8_witness :
    validate_command "bash" WHITELIST_READONLY none = some .commandForbidden ∧
    validate_command "wget" WHITELIST_READWRITE (some ["x"]) = some .commandForbidden :=
  ⟨c8_blacklist "bash" WHITELIST_READONLY none (by decide) (Or.inl rfl),
   c8_blacklist "wget" WHITELIST_READWRITE (some ["x"]) (by decide) (Or.inr rfl)⟩

/-- C9 (amended): a lock record whose text fails JSON decoding is treated
as absent by edit_open — given the data path exists, the open produces the
identical result (state and outcome) as with no lock file at the path; but
a record that decodes to a JSON object lacking a conv_id field is not
treated as absent: it blocks every conversation with FILE_LOCKED whose
owner field is None. -/
theorem c9_malformed_lock (st : ZoneState) (conv userId : String) (now : Nat)
    (path p : String)
    (hv : validate_relative_path path = .ok p)
    (hex : dataExists st p = true) :
    (lookupLock st.locks p = some .undecodable →
      storage_edit_open conv userId now path st =
        storage_edit_open conv userId now path
          { st with locks := removeLock p st.locks }) ∧
    (∀ u2 t pa, lookupLock st.locks p = some (.obj none u2 t pa) →
      storage_edit_open conv userId now path st =
        (st, some (.fileLocked none t pa))) := by
  constructor
  · intro hl
    unfold storage_edit_open
    rw [hv]
    dsimp only
    rw [if_pos hex, if_pos (show dataExists { st with locks := removeLock p st.locks } p = true from hex)]
    rw [hl]
    rw [show lookupLock ({ st with locks := removeLock p st.locks } : ZoneState).locks p = none from
      lookupLock_removeLock p st.locks]
    unfold check_lock
    dsimp only
    simp only [setLock]
    rw [show removeLock p ({ st with locks := removeLock p st.locks } : ZoneState).locks =
      removeLock p st.locks from removeLock_idem p st.locks]
  · intro u2 t pa hl
    unfold storage_edit_open
    rw [hv]
    dsimp only
    rw [if_pos hex, hl]
    unfold check_lock
    dsimp only
    rw [if_neg (show ¬ (none : Option String) = some conv from by simp)]

/-- C9 counterexample: a lock file holding the decodable JSON object with
no conv_id field is malformed as a lock record, yet it blocks a
conversation's edit_open with FILE_LOCKED instead of being treated as
absent. -/
theorem c9_counterexample :
    storage_edit_open "conv1" "u" 7 "a.txt"
      ⟨[("a.txt", "hi")], [("a.txt", .obj none none .missing none)], []⟩ =
      (⟨[("a.txt", "hi")], [("a.txt", .obj none none .missing none)], []⟩,
       some (.fileLocked none .missing none)) := rfl

/-- C9 witness: concrete instances of both halves of the amended claim. -/
theorem c9_witness :
    (storage_edit_open "c" "u" 3 "a.txt"
        ⟨[("a.txt", "hi")], [("a.txt", .undecodable)], []⟩ =
      storage_edit_open "c" "u" 3 "a.txt"
        ⟨[("a.txt", "hi")], removeLock "a.txt" [("a.txt", .undecodable)], []⟩) ∧
    storage_edit_open "c2" "u" 3 "b.txt"
        ⟨[("b.txt", "x")], [("b.txt", .obj none none (.at 1) (some "b.txt"))], []⟩ =
      (⟨[("b.txt", "x")], [("b.txt", .obj none none (.at 1) (some "b.txt"))], []⟩,
       some (.fileLocked none (.at 1) (some "b.txt"))) :=
  ⟨(c9_malformed_lock
      ⟨[("a.txt", "hi")], [("a.txt", .undecodable)], []⟩
      "c" "u" 3 "a.txt" "a.txt" rfl (by decide)).1 rfl,
   (c9_malformed_lock
      ⟨[("b.txt", "x")], [("b.txt", .obj none none (.at 1) (some "b.txt"))], []⟩
      "c2" "u" 3 "b.txt" "b.txt" rfl (by decide)).2 none (.at 1) (some "b.txt") rfl⟩

/-- C10: when a conversation calls edit_open on a regular file whose lock
record it already owns (decoded conv_id equal to the caller's), the call
does not fail with FILE_LOCKED: it succeeds, rewrites the lock record with
a fresh timestamp, and overwrites the edit-zone copy with the current
data/ content, discarding whatever was stored there. -/
theorem c10_reopen_same_conv (st : ZoneState) (conv userId : String) (now : Nat)
    (path p v : String) (u2 : Option String) (t0 : TimeField) (pa : Option String)
    (hv : validate_relative_path path = .ok p)
    (hget : dataGet st.data p = some v)
    (hdir : dataIsDir st p = false)
    (hlock : lookupLock st.locks p = some (.obj (some conv) u2 t0 pa))
    (hezd : ezIsDir st conv p = false) :
    storage_edit_open conv userId now path st =
      ({ st with
          locks := setLock p (.obj (some conv) (some userId) (.at now) (some p)) st.locks,
          editzone := setEz conv p v st.editzone }, none) := by
  have hex := dataExists_of_get st p v hget
  unfold storage_edit_open
  rw [hv]
  dsimp only
  rw [if_pos hex, hlock]
  unfold check_lock
  dsimp only
  rw [if_pos rfl]
  dsimp only
  rw [if_neg (bool_not_true (show dataIsDir
    { st with locks := setLock p (.obj (some conv) (some userId) (.at now) (some p)) st.locks } p
      = false from hdir))]
  unfold copy2ToEz
  rw [show dataGet ({ st with
      locks := setLock p (.obj (some conv) (some userId) (.at now) (some p)) st.locks } :
        ZoneState).data p = some v from hget]
  dsimp only
  rw [if_neg (bool_not_true (show ezIsDir
    { st with locks := setLock p (.obj (some conv) (some userId) (.at now) (some p)) st.locks }
      conv p = false from hezd))]

/-- C10 witness: a conversation re-opens a file it holds the lock on; the
lock timestamp is refreshed and the stale edit-zone copy is replaced by
the current data content. -/
theorem c10_witness :
    storage_edit_open "c" "u" 9 "a.txt"
      ⟨[("a.txt", "NEW")],
       [("a.txt", .obj (some "c") (some "u") (.at 1) (some "a.txt"))],
       [("c", "a.txt", "OLD")]⟩ =
      (⟨[("a.txt", "NEW")],
        [("a.txt", .obj (some "c") (some "u") (.at 9) (some "a.txt"))],
        [("c", "a.txt", "NEW")]⟩, none) := by
  have h := c10_reopen_same_conv
    ⟨[("a.txt", "NEW")],
     [("a.txt", .obj (some "c") (some "u") (.at 1) (some "a.txt"))],
     [("c", "a.txt", "OLD")]⟩
    "c" "u" 9 "a.txt" "a.txt" "NEW" (some "u") (.at 1) (some "a.txt")
    rfl rfl (by decide) rfl (by decide)
  exact h.trans (by decide)
